import Mathlib

/-
Verification of the data-preparation, filtering and aggregation core of the
aircraft-incident dashboard (src/Aviation_incidents_app/app.py).

Embedding choices:
  - A pandas cell is `Cell`: missing (NaN/None), a number, or a string.
    Numbers are modelled as rationals; the claims under study concern
    missing-data logic, clamping and summation, for which exact arithmetic
    agrees with float evaluation on the expressions involved.
  - A DataFrame is `Table`: a list of column labels and a list of rows; each
    row is an association list from column label to cell.  `getCell` reads a
    cell (a label absent from a row reads as missing, as a reindexed frame
    would).
  - Series passed to `safe_metric_calculation` are numeric-with-missing
    (`List (Option Rat)`): every call site passes a numeric column
    (Fatalities (Air), Ground, Survival Rate).
-/

inductive Cell where
  | na : Cell
  | num : ℚ → Cell
  | str : String → Cell
deriving DecidableEq

abbrev Row := List (String × Cell)

@[ext]
structure Table where
  cols : List String
  rows : List Row
deriving DecidableEq

/-- Read the cell stored under column label `k` in a row; absent reads as missing. -/
def getCell : Row → String → Cell
  | [], _ => Cell.na
  | (k', v) :: rest, k => if k' = k then v else getCell rest k

/-- Write cell `v` under label `k`: overwrite entries with that label if present
(pandas column assignment keeps the column position), append otherwise. -/
def setEntry (r : Row) (k : String) (v : Cell) : Row :=
  if r.any (fun kv => kv.1 = k) then
    r.map (fun kv => if kv.1 = k then (k, v) else kv)
  else r ++ [(k, v)]

/-- The pandas `.empty` test: true when either axis has length zero. -/
def dfEmpty (t : Table) : Bool := t.rows.isEmpty || t.cols.isEmpty

/-- Elementwise pandas equality as used by `series == value` on the dtypes this
app holds (floats and strings): NaN compares unequal to everything (itself
included), numbers and strings compare within their kind, and a number never
equals a string. -/
def peq (a b : Cell) : Bool :=
  match a, b with
  | Cell.num x, Cell.num y => x = y
  | Cell.str s, Cell.str t => s = t
  | _, _ => false

/-- Embedding of `apply_filters` (app.py lines 149-160): start from a copy of
the table and, for each (name, value) pair with value ≠ "All" and the name
among the original table's columns, keep only the rows whose cell equals the
value.  On the cell types of this app the comparison is total, so the
`try/except` never fires; `apply_filtersR` below makes the exception path
explicit. -/
def apply_filters (df : Table) (filters : List (String × Cell)) : Table :=
  { cols := df.cols
    rows := filters.foldl
      (fun rows fv =>
        if fv.2 ≠ Cell.str "All" ∧ fv.1 ∈ df.cols then
          rows.filter (fun r => peq (getCell r fv.1) fv.2)
        else rows)
      df.rows }

/-- `apply_filters` with the `try/except Exception: continue` made explicit:
`raises n v = true` models the equality comparison for predicate (n, v)
raising, in which case that predicate is skipped (`continue`) and the row set
is left as it was. -/
def apply_filtersR (df : Table) (filters : List (String × Cell))
    (raises : String → Cell → Bool) : Table :=
  { cols := df.cols
    rows := filters.foldl
      (fun rows fv =>
        if fv.2 ≠ Cell.str "All" ∧ fv.1 ∈ df.cols then
          if raises fv.1 fv.2 then rows
          else rows.filter (fun r => peq (getCell r fv.1) fv.2)
        else rows)
      df.rows }

/-- The per-row predicate one filter entry contributes: an equality test when
the entry is active (value ≠ "All" and column present), vacuously true
otherwise. -/
def rowPass (df : Table) (fv : String × Cell) (r : Row) : Bool :=
  if fv.2 ≠ Cell.str "All" ∧ fv.1 ∈ df.cols then peq (getCell r fv.1) fv.2
  else true

/-- As `rowPass`, for the exception-explicit variant: a predicate whose
comparison raises contributes nothing. -/
def rowPassR (df : Table) (raises : String → Cell → Bool) (fv : String × Cell)
    (r : Row) : Bool :=
  if (fv.2 ≠ Cell.str "All" ∧ fv.1 ∈ df.cols) ∧ raises fv.1 fv.2 = false then
    peq (getCell r fv.1) fv.2
  else true

theorem apply_filtersR_foldl_eq (df : Table) (raises : String → Cell → Bool) :
    ∀ (fs : List (String × Cell)) (rows : List Row),
      fs.foldl
        (fun rows fv =>
          if fv.2 ≠ Cell.str "All" ∧ fv.1 ∈ df.cols then
            if raises fv.1 fv.2 then rows
            else rows.filter (fun r => peq (getCell r fv.1) fv.2)
          else rows)
        rows
      = rows.filter (fun r => fs.all (fun fv => rowPassR df raises fv r)) := by
  intro fs
  induction fs with
  | nil =>
      intro rows
      simp
  | cons fv fs ih =>
      intro rows
      by_cases hact : fv.2 ≠ Cell.str "All" ∧ fv.1 ∈ df.cols
      · obtain ⟨h1, h2⟩ := hact
        by_cases hr : raises fv.1 fv.2
        · simp only [List.foldl_cons, if_pos (And.intro h1 h2), if_pos hr, ih]
          apply List.filter_congr
          intro r _
          simp [List.all_cons, rowPassR, h1, h2, hr]
        · simp only [List.foldl_cons, if_pos (And.intro h1 h2), if_neg hr, ih,
            List.filter_filter]
          apply List.filter_congr
          intro r _
          simp [List.all_cons, rowPassR, h1, h2, hr, Bool.and_comm]
      · simp only [List.foldl_cons, if_neg hact, ih]
        apply List.filter_congr
        intro r _
        simp only [List.all_cons, rowPassR, hact]
        simp

theorem apply_filtersR_rows (df : Table) (fs : List (String × Cell))
    (raises : String → Cell → Bool) :
    (apply_filtersR df fs raises).rows
      = df.rows.filter (fun r => fs.all (fun fv => rowPassR df raises fv r)) := by
  simpa [apply_filtersR] using apply_filtersR_foldl_eq df raises fs df.rows

theorem apply_filters_eq_filtersR (df : Table) (fs : List (String × Cell)) :
    apply_filters df fs = apply_filtersR df fs (fun _ _ => false) := by
  simp [apply_filters, apply_filtersR]

theorem rowPass_eq_rowPassR (df : Table) (fv : String × Cell) (r : Row) :
    rowPass df fv r = rowPassR df (fun _ _ => false) fv r := by
  simp [rowPass, rowPassR]

theorem apply_filters_rows (df : Table) (fs : List (String × Cell)) :
    (apply_filters df fs).rows
      = df.rows.filter (fun r => fs.all (fun fv => rowPass df fv r)) := by
  rw [apply_filters_eq_filtersR, apply_filtersR_rows]
  apply List.filter_congr
  intro r _
  simp only [rowPass_eq_rowPassR]

theorem rowPass_cols_eq (df df' : Table) (h : df.cols = df'.cols)
    (fv : String × Cell) (r : Row) : rowPass df fv r = rowPass df' fv r := by
  simp [rowPass, h]

/-- C5: `apply_filters` is idempotent: applying the same predicate set twice
yields the same table (hence the same row set) as applying it once. -/
theorem apply_filters_idempotent (df : Table) (fs : List (String × Cell)) :
    apply_filters (apply_filters df fs) fs = apply_filters df fs := by
  apply Table.ext
  · rfl
  · rw [apply_filters_rows (apply_filters df fs) fs]
    have hpass : ∀ (fv : String × Cell) (r : Row),
        rowPass (apply_filters df fs) fv r = rowPass df fv r := by
      intro fv r
      exact rowPass_cols_eq (apply_filters df fs) df rfl fv r
    calc (apply_filters df fs).rows.filter
          (fun r => fs.all fun fv => rowPass (apply_filters df fs) fv r)
        = (apply_filters df fs).rows.filter
            (fun r => fs.all fun fv => rowPass df fv r) := by
          apply List.filter_congr
          intro r _
          simp only [hpass]
      _ = (df.rows.filter (fun r => fs.all fun fv => rowPass df fv r)).filter
            (fun r => fs.all fun fv => rowPass df fv r) := by
          rw [apply_filters_rows df fs]
      _ = df.rows.filter (fun r => fs.all fun fv => rowPass df fv r) := by
          rw [List.filter_filter]
          apply List.filter_congr
          intro r _
          simp
      _ = (apply_filters df fs).rows := (apply_filters_rows df fs).symm

/-- C6: `apply_filters` with every predicate value equal to the wildcard
"All" returns a table identical to the input: same columns, same rows in the
same order. -/
theorem apply_filters_all_All (df : Table) (fs : List (String × Cell))
    (h : ∀ fv ∈ fs, fv.2 = Cell.str "All") : apply_filters df fs = df := by
  apply Table.ext
  · rfl
  · rw [apply_filters_rows]
    calc df.rows.filter (fun r => fs.all fun fv => rowPass df fv r)
        = df.rows.filter (fun _ => true) := by
          apply List.filter_congr
          intro r _
          rw [List.all_eq_true]
          intro fv hfv
          simp [rowPass, h fv hfv]
      _ = df.rows := by simp

theorem apply_filters_all_All_witness :
    (∀ fv ∈ [("Country", Cell.str "All"), ("Year", Cell.str "All")],
        fv.2 = Cell.str "All")
    ∧ apply_filters
        (Table.mk ["Country"] [[("Country", Cell.str "USA")],
          [("Country", Cell.str "UK")]])
        [("Country", Cell.str "All"), ("Year", Cell.str "All")]
      = Table.mk ["Country"] [[("Country", Cell.str "USA")],
          [("Country", Cell.str "UK")]] :=
  ⟨by decide, apply_filters_all_All _ _ (by decide)⟩

/-- C7: the filter engine restricts rows by exact equality for each
(column, value) pair with value ≠ "All" whose column exists in the table,
composed as one logical AND (first conjunct); the composition is
order-independent: any permutation of the predicate list yields the same
filtered table (second conjunct); predicates naming absent columns contribute
the vacuous test (they are ignored inside `rowPass`, never an error); and in
the exception-explicit variant a predicate whose comparison raises is skipped
while all other predicates still apply (third conjunct), the variant agreeing
with `apply_filters` when nothing raises (fourth conjunct). -/
theorem apply_filters_and_semantics (df : Table) (fs : List (String × Cell)) :
    ((apply_filters df fs).rows
        = df.rows.filter (fun r => fs.all (fun fv => rowPass df fv r)))
    ∧ (∀ fs', fs.Perm fs' → apply_filters df fs' = apply_filters df fs)
    ∧ (∀ raises, (apply_filtersR df fs raises).rows
        = df.rows.filter (fun r => fs.all (fun fv => rowPassR df raises fv r)))
    ∧ apply_filtersR df fs (fun _ _ => false) = apply_filters df fs := by
  refine ⟨apply_filters_rows df fs, ?_,
    fun raises => apply_filtersR_rows df fs raises,
    (apply_filters_eq_filtersR df fs).symm⟩
  intro fs' hp
  apply Table.ext
  · rfl
  · rw [apply_filters_rows, apply_filters_rows]
    apply List.filter_congr
    intro r _
    rw [Bool.eq_iff_iff, List.all_eq_true, List.all_eq_true]
    constructor
    · intro hh fv hfv
      exact hh fv (hp.mem_iff.mp hfv)
    · intro hh fv hfv
      exact hh fv (hp.mem_iff.mpr hfv)

theorem apply_filters_and_semantics_witness :
    List.Perm [("Country", Cell.str "USA"), ("Year", Cell.num 1985)]
      [("Year", Cell.num 1985), ("Country", Cell.str "USA")]
    ∧ apply_filters
        (Table.mk ["Country"] [[("Country", Cell.str "USA")],
          [("Country", Cell.str "UK")]])
        [("Year", Cell.num 1985), ("Country", Cell.str "USA")]
      = apply_filters
          (Table.mk ["Country"] [[("Country", Cell.str "USA")],
            [("Country", Cell.str "UK")]])
          [("Country", Cell.str "USA"), ("Year", Cell.num 1985)] :=
  ⟨by decide,
    (apply_filters_and_semantics
      (Table.mk ["Country"] [[("Country", Cell.str "USA")],
        [("Country", Cell.str "UK")]])
      [("Country", Cell.str "USA"), ("Year", Cell.num 1985)]).2.1
      _ (by decide)⟩

/-- Embedding of `safe_metric_calculation` (app.py lines 89-102): return the
default sentinel (`None`, modelled as `none`) when the series is empty or
entirely missing; otherwise compute the pandas mean or sum with the default
`skipna=True` semantics — missing entries are dropped, the mean divides the
sum of present entries by their number.  Every call site passes the default
sentinel `None` and a numeric series. -/
def safe_metric_calculation (series : List (Option ℚ)) (operation : String) :
    Option ℚ :=
  if series.isEmpty || series.all (fun x => x.isNone) then none
  else if operation = "mean" then
    some ((series.filterMap id).sum / ((series.filterMap id).length : ℚ))
  else if operation = "sum" then
    some (series.filterMap id).sum
  else none

/-- C2: `safe_metric_calculation` returns the sentinel `none` — a value
distinct from the number 0 — when the series is empty or every entry is
missing, and otherwise returns the mean or sum computed over only the
non-missing entries (for mean, missing entries are excluded from numerator
and denominator alike).  The embedding is a total function into `Option ℚ`,
so it never raises and never returns NaN as a real value. -/
theorem safe_metric_spec (s : List (Option ℚ)) :
    ((s = [] ∨ ∀ x ∈ s, x = none) →
      safe_metric_calculation s "mean" = none
        ∧ safe_metric_calculation s "sum" = none)
    ∧ ((s ≠ [] ∧ ∃ x ∈ s, x ≠ none) →
      safe_metric_calculation s "mean"
          = some ((s.filterMap id).sum / ((s.filterMap id).length : ℚ))
        ∧ safe_metric_calculation s "sum" = some (s.filterMap id).sum)
    ∧ (none : Option ℚ) ≠ some 0 := by
  refine ⟨?_, ?_, by simp⟩
  · intro h
    have hguard : (s.isEmpty || s.all fun x => x.isNone) = true := by
      rcases h with h | h
      · simp [h]
      · rw [Bool.or_eq_true, List.all_eq_true]
        right
        intro x hx
        simp [h x hx]
    constructor <;> simp [safe_metric_calculation, hguard]
  · rintro ⟨h1, h2⟩
    have hguard : (s.isEmpty || s.all fun x => x.isNone) = false := by
      rw [Bool.or_eq_false_iff]
      constructor
      · cases s with
        | nil => exact absurd rfl h1
        | cons a l => rfl
      · obtain ⟨x, hx, hxe⟩ := h2
        rw [Bool.eq_false_iff]
        intro hall
        rw [List.all_eq_true] at hall
        exact hxe (Option.isNone_iff_eq_none.mp (hall x hx))
    constructor <;> simp [safe_metric_calculation, hguard]

theorem safe_metric_spec_witness :
    (([some 1, none, some 4] : List (Option ℚ)) ≠ []
      ∧ ∃ x ∈ ([some 1, none, some 4] : List (Option ℚ)), x ≠ none)
    ∧ (safe_metric_calculation [some 1, none, some 4] "mean"
        = some ((([some 1, none, some 4] : List (Option ℚ)).filterMap id).sum
            / ((([some 1, none, some 4] : List (Option ℚ)).filterMap id).length : ℚ))
      ∧ safe_metric_calculation [some 1, none, some 4] "sum"
        = some (([some 1, none, some 4] : List (Option ℚ)).filterMap id).sum) :=
  ⟨⟨by decide, by decide⟩,
    (safe_metric_spec [some 1, none, some 4]).2.1 ⟨by decide, by decide⟩⟩

/-- The non-missing cells of column `c`, in row order: the universe that
`value_counts` counts and the group keys that `groupby` forms (both drop
missing values). -/
def colNonNull (df : Table) (c : String) : List Cell :=
  (df.rows.map (fun r => getCell r c)).filter (fun x => x ≠ Cell.na)

def isStrCell : Cell → Bool
  | Cell.str _ => true
  | _ => false

/-- Whether column `c` holds any string cell — in pandas terms, whether the
column carries string data and hence object dtype.  `groupby()[v].sum()` on
such a value column either raises at the sum (a group mixing numbers and
strings) or yields an object-dtype result on which `idxmax` raises; either
way the `except` of `safe_groupby_operation` returns the default. -/
def colHasStr (df : Table) (c : String) : Bool :=
  df.rows.any (fun r => isStrCell (getCell r c))

/-- Numeric reading of one value cell of a string-free (numeric-dtype)
column: the number, or nothing for a missing cell, which `skipna` drops. -/
def cellQ : Cell → Option ℚ
  | Cell.num q => some q
  | _ => none

/-- Sum of the value column over the rows of one group of a string-free
value column: pandas `groupby(g)[v].sum()` with default `skipna` — missing
cells contribute nothing and a group whose value cells are all missing sums
to 0 (`min_count=0`).  String-bearing value columns never reach this sum:
`safe_groupby_operation` sends them to the default through the raise path
modelled by `colHasStr`. -/
def groupSum (df : Table) (g v : String) (k : Cell) : ℚ :=
  ((df.rows.filter (fun r => getCell r g = k)).filterMap
    (fun r => cellQ (getCell r v))).sum

def argmaxAux {β : Type} [LinearOrder β] (f : Cell → β) (best : Cell) :
    List Cell → Cell
  | [] => best
  | k :: ks => argmaxAux f (if f best < f k then k else best) ks

/-- First element of the list achieving the maximal value of `f`: pandas
`idxmax` keeps the earliest maximal index.  For ties, pandas' ordering of
`value_counts` / sorted group keys is implementation-defined; the embedding
fixes the deterministic first-encountered rule, which the claims leave free. -/
def argmaxFirst {β : Type} [LinearOrder β] (f : Cell → β) :
    List Cell → Option Cell
  | [] => none
  | k :: ks => some (argmaxAux f k ks)

theorem argmaxAux_mem {β : Type} [LinearOrder β] (f : Cell → β) :
    ∀ (l : List Cell) (b : Cell), argmaxAux f b l = b ∨ argmaxAux f b l ∈ l := by
  intro l
  induction l with
  | nil =>
      intro b
      left
      rfl
  | cons k ks ih =>
      intro b
      simp only [argmaxAux]
      by_cases h : f b < f k
      · rw [if_pos h]
        rcases ih k with h' | h'
        · right
          rw [h']
          exact List.mem_cons_self _ _
        · right
          exact List.mem_cons_of_mem _ h'
      · rw [if_neg h]
        rcases ih b with h' | h'
        · left
          exact h'
        · right
          exact List.mem_cons_of_mem _ h'

theorem le_argmaxAux {β : Type} [LinearOrder β] (f : Cell → β) :
    ∀ (l : List Cell) (b : Cell),
      f b ≤ f (argmaxAux f b l) ∧ ∀ y ∈ l, f y ≤ f (argmaxAux f b l) := by
  intro l
  induction l with
  | nil =>
      intro b
      refine ⟨le_refl _, ?_⟩
      intro y hy
      cases hy
  | cons k ks ih =>
      intro b
      simp only [argmaxAux]
      by_cases h : f b < f k
      · rw [if_pos h]
        refine ⟨le_of_lt (lt_of_lt_of_le h (ih k).1), ?_⟩
        intro y hy
        rcases List.mem_cons.mp hy with rfl | hy'
        · exact (ih y).1
        · exact (ih k).2 y hy'
      · rw [if_neg h]
        refine ⟨(ih b).1, ?_⟩
        intro y hy
        rcases List.mem_cons.mp hy with rfl | hy'
        · exact le_trans (le_of_not_lt h) (ih b).1
        · exact (ih b).2 y hy'

theorem argmaxFirst_spec {β : Type} [LinearOrder β] (f : Cell → β)
    (l : List Cell) (h : l ≠ []) :
    ∃ x, argmaxFirst f l = some x ∧ x ∈ l ∧ ∀ y ∈ l, f y ≤ f x := by
  cases l with
  | nil => exact absurd rfl h
  | cons k ks =>
      refine ⟨argmaxAux f k ks, rfl, ?_, ?_⟩
      · rcases argmaxAux_mem f ks k with h' | h'
        · rw [h']
          exact List.mem_cons_self _ _
        · exact List.mem_cons_of_mem _ h'
      · intro y hy
        rcases List.mem_cons.mp hy with rfl | hy'
        · exact (le_argmaxAux f ks y).1
        · exact (le_argmaxAux f ks k).2 y hy'

/-- Embedding of `safe_groupby_operation` (app.py lines 72-87): the default
sentinel when the table is empty or the group column absent; for `count`,
`value_counts().idxmax()` — a most frequent non-missing value of the column,
the `idxmax` on an empty count series raising and being caught into the
default; for `sum_max` (guarded by `value_col` being a truthy, present column
name), the default when the value column carries string data (the grouped
sum or its `idxmax` then raises and the `except` catches it), otherwise the
group key with maximal per-group sum, the default when the grouped result is
empty (no non-missing group key); anything else gives the default. -/
def safe_groupby_operation (df : Table) (group_col : String)
    (value_col : Option String) (operation : String) (default : Cell) : Cell :=
  if dfEmpty df = true ∨ group_col ∉ df.cols then default
  else if operation = "count" then
    match argmaxFirst (fun x => (colNonNull df group_col).count x)
        (colNonNull df group_col) with
    | some x => x
    | none => default
  else
    let v := value_col.getD ""
    if operation = "sum_max" ∧ v ≠ "" ∧ v ∈ df.cols then
      if colHasStr df v then default
      else
        match argmaxFirst (fun k => groupSum df group_col v k)
            (colNonNull df group_col) with
        | some k => k
        | none => default
    else default

/-- The three-row example table of the specification: (1985, 100, 20, USA),
(1985, 50, 50, USA), (1990, 200, 0, UK). -/
def exampleTable : Table :=
  Table.mk ["Year", "Aboard", "Fatalities (Air)", "Country"]
    [[("Year", Cell.num 1985), ("Aboard", Cell.num 100),
      ("Fatalities (Air)", Cell.num 20), ("Country", Cell.str "USA")],
     [("Year", Cell.num 1985), ("Aboard", Cell.num 50),
      ("Fatalities (Air)", Cell.num 50), ("Country", Cell.str "USA")],
     [("Year", Cell.num 1990), ("Aboard", Cell.num 200),
      ("Fatalities (Air)", Cell.num 0), ("Country", Cell.str "UK")]]

/-- C3 counterexample: a one-row table whose group cell is present but whose
value cell is missing.  Every value in the value column is missing, yet the
grouped result is not empty — the single group sums to 0 — so the code
returns the group key "USA", not the sentinel the claim requires for this
case. -/
theorem sum_max_allMissing_counterexample :
    safe_groupby_operation
        (Table.mk ["Country", "Fatalities (Air)"]
          [[("Country", Cell.str "USA"), ("Fatalities (Air)", Cell.na)]])
        "Country" (some "Fatalities (Air)") "sum_max" (Cell.str "–")
      = Cell.str "USA"
    ∧ Cell.str "USA" ≠ Cell.str "–"
    ∧ (∀ r ∈ (Table.mk ["Country", "Fatalities (Air)"]
          [[("Country", Cell.str "USA"), ("Fatalities (Air)", Cell.na)]]).rows,
        getCell r "Fatalities (Air)" = Cell.na) := by
  decide

/-- C3 (amended): `sum_max` returns the sentinel when the table is empty, the
group column is absent, the value column is absent (or falsy), the value
column carries string data (the grouped sum or its `idxmax` raises and the
`except` returns the sentinel), or no row has a non-missing group cell (the
grouped result is then empty); when group keys are present and the value
column is numeric-or-missing it returns a group key whose per-group sum of
the value column is maximal (first-encountered among ties) — in particular
when all value cells are missing each group sums to 0 and a group key, not
the sentinel, is returned; on the specification's 3-row example, Country
sums are USA = 70 and UK = 0 and the result is "USA". -/
theorem sum_max_groupSum_spec (df : Table) (g v : String) (d : Cell) :
    ((dfEmpty df = true ∨ g ∉ df.cols) →
        safe_groupby_operation df g (some v) "sum_max" d = d)
    ∧ (¬(dfEmpty df = true ∨ g ∉ df.cols) → (v = "" ∨ v ∉ df.cols) →
        safe_groupby_operation df g (some v) "sum_max" d = d)
    ∧ (¬(dfEmpty df = true ∨ g ∉ df.cols) → v ≠ "" → v ∈ df.cols →
        colHasStr df v = true →
        safe_groupby_operation df g (some v) "sum_max" d = d)
    ∧ (¬(dfEmpty df = true ∨ g ∉ df.cols) → colNonNull df g = [] →
        safe_groupby_operation df g (some v) "sum_max" d = d)
    ∧ (¬(dfEmpty df = true ∨ g ∉ df.cols) → v ≠ "" → v ∈ df.cols →
        colHasStr df v = false → colNonNull df g ≠ [] →
        ∃ k, safe_groupby_operation df g (some v) "sum_max" d = k
          ∧ k ∈ colNonNull df g
          ∧ ∀ k' ∈ colNonNull df g, groupSum df g v k' ≤ groupSum df g v k)
    ∧ safe_groupby_operation exampleTable "Country" (some "Fatalities (Air)")
        "sum_max" (Cell.str "–") = Cell.str "USA"
    ∧ groupSum exampleTable "Country" "Fatalities (Air)" (Cell.str "USA") = 70
    ∧ groupSum exampleTable "Country" "Fatalities (Air)" (Cell.str "UK") = 0 := by
  refine ⟨?_, ?_, ?_, ?_, ?_,
    by norm_num +decide [safe_groupby_operation, exampleTable, dfEmpty,
      colNonNull, getCell, groupSum, cellQ, colHasStr, isStrCell,
      argmaxFirst, argmaxAux,
      List.sum_cons, List.sum_nil, List.filterMap_cons, List.filterMap_nil],
    by norm_num +decide [groupSum, exampleTable, getCell, cellQ,
      List.sum_cons, List.sum_nil, List.filterMap_cons, List.filterMap_nil],
    by norm_num +decide [groupSum, exampleTable, getCell, cellQ,
      List.sum_cons, List.sum_nil, List.filterMap_cons, List.filterMap_nil]⟩
  · intro h
    simp [safe_groupby_operation, h]
  · intro hg hv
    rw [safe_groupby_operation, if_neg hg, if_neg (by decide)]
    simp only [Option.getD_some, ite_eq_right_iff, and_imp]
    intro _ h1 h2
    rcases hv with h | h
    · exact absurd h h1
    · exact absurd h2 h
  · intro hg hne hmem hstr
    rw [safe_groupby_operation, if_neg hg, if_neg (by decide)]
    simp [hne, hmem, hstr]
  · intro hg hnil
    rw [safe_groupby_operation, if_neg hg, if_neg (by decide)]
    simp [hnil, argmaxFirst]
  · intro hg hne hmem hstr hnil
    obtain ⟨k, hk, hkmem, hkmax⟩ :=
      argmaxFirst_spec (fun k => groupSum df g v k) (colNonNull df g) hnil
    refine ⟨k, ?_, hkmem, hkmax⟩
    rw [safe_groupby_operation, if_neg hg, if_neg (by decide)]
    simp [hne, hmem, hstr, hk]

theorem sum_max_groupSum_spec_witness :
    (¬(dfEmpty exampleTable = true ∨ "Country" ∉ exampleTable.cols)
      ∧ "Fatalities (Air)" ≠ ""
      ∧ "Fatalities (Air)" ∈ exampleTable.cols
      ∧ colHasStr exampleTable "Fatalities (Air)" = false
      ∧ colNonNull exampleTable "Country" ≠ [])
    ∧ ∃ k, safe_groupby_operation exampleTable "Country"
          (some "Fatalities (Air)") "sum_max" (Cell.str "–") = k
        ∧ k ∈ colNonNull exampleTable "Country"
        ∧ ∀ k' ∈ colNonNull exampleTable "Country",
            groupSum exampleTable "Country" "Fatalities (Air)" k'
              ≤ groupSum exampleTable "Country" "Fatalities (Air)" k :=
  ⟨⟨by decide, by decide, by decide, by decide, by decide⟩,
    (sum_max_groupSum_spec exampleTable "Country" "Fatalities (Air)"
      (Cell.str "–")).2.2.2.2.1 (by decide) (by decide) (by decide)
      (by decide) (by decide)⟩

/-- An 8-row one-column table: the value "A" occurs 5 times and "B" 3 times. -/
def fiveThreeTable : Table :=
  Table.mk ["V"]
    (List.replicate 5 [("V", Cell.str "A")]
      ++ List.replicate 3 [("V", Cell.str "B")])

/-- C4 counterexample: a non-empty table whose column is present but contains
only missing values.  The claim allows the sentinel only for an empty table
or an absent column and otherwise requires a value of the column; here the
column has no non-missing value at all, `value_counts()` is empty, `idxmax`
raises and is caught, and the code returns the sentinel "–", which occurs
nowhere in the column. -/
theorem count_allMissing_counterexample :
    safe_groupby_operation (Table.mk ["C"] [[("C", Cell.na)]]) "C" none
        "count" (Cell.str "–") = Cell.str "–"
    ∧ dfEmpty (Table.mk ["C"] [[("C", Cell.na)]]) = false
    ∧ "C" ∈ (Table.mk ["C"] [[("C", Cell.na)]]).cols
    ∧ colNonNull (Table.mk ["C"] [[("C", Cell.na)]]) "C" = [] := by
  decide

/-- C4 (amended): `count` returns the sentinel when the table is empty, the
column is absent, or the column contains no non-missing value; otherwise it
returns a non-missing value of the column with the highest occurrence count,
under the deterministic first-encountered tie-break (the embedding is a
function, so the same input always yields the same output); on a table with
one value occurring 5 times and another 3 times it returns the 5-occurrence
value. -/
theorem count_mostFrequent_spec (df : Table) (c : String) (vc : Option String)
    (d : Cell) :
    ((dfEmpty df = true ∨ c ∉ df.cols) →
        safe_groupby_operation df c vc "count" d = d)
    ∧ (¬(dfEmpty df = true ∨ c ∉ df.cols) → colNonNull df c = [] →
        safe_groupby_operation df c vc "count" d = d)
    ∧ (¬(dfEmpty df = true ∨ c ∉ df.cols) → colNonNull df c ≠ [] →
        ∃ x, safe_groupby_operation df c vc "count" d = x
          ∧ x ∈ colNonNull df c
          ∧ ∀ y ∈ colNonNull df c,
              (colNonNull df c).count y ≤ (colNonNull df c).count x)
    ∧ safe_groupby_operation fiveThreeTable "V" none "count" (Cell.str "–")
        = Cell.str "A" := by
  refine ⟨?_, ?_, ?_, by decide⟩
  · intro h
    simp [safe_groupby_operation, h]
  · intro hg hnil
    rw [safe_groupby_operation, if_neg hg, if_pos rfl]
    simp [hnil, argmaxFirst]
  · intro hg hnil
    obtain ⟨x, hx, hxmem, hxmax⟩ :=
      argmaxFirst_spec (fun x => (colNonNull df c).count x) (colNonNull df c)
        hnil
    refine ⟨x, ?_, hxmem, hxmax⟩
    rw [safe_groupby_operation, if_neg hg, if_pos rfl]
    simp [hx]

theorem count_mostFrequent_spec_witness :
    (¬(dfEmpty fiveThreeTable = true ∨ "V" ∉ fiveThreeTable.cols)
      ∧ colNonNull fiveThreeTable "V" ≠ [])
    ∧ ∃ x, safe_groupby_operation fiveThreeTable "V" none "count"
          (Cell.str "–") = x
        ∧ x ∈ colNonNull fiveThreeTable "V"
        ∧ ∀ y ∈ colNonNull fiveThreeTable "V",
            (colNonNull fiveThreeTable "V").count y
              ≤ (colNonNull fiveThreeTable "V").count x :=
  ⟨⟨by decide, by decide⟩,
    (count_mostFrequent_spec fiveThreeTable "V" none (Cell.str "–")).2.2.1
      (by decide) (by decide)⟩

/-- The column-name alias table of `load_data` (app.py lines 27-40), as an
association list in source order: each accepted raw header and its canonical
name. -/
def rename_map : List (String × String) :=
  [("year", "Year"), ("Year", "Year"),
   ("month", "Month"), ("Month", "Month"),
   ("month_name", "Month Name"), ("Month Name", "Month Name"),
   ("country", "Country"), ("Country", "Country"),
   ("city", "City"), ("City", "City"),
   ("region", "Region"), ("Region", "Region"),
   ("operator", "Operator"), ("Operator", "Operator"),
   ("aircraft", "Aircraft"), ("Aircraft", "Aircraft"),
   ("aircraft_manufacturer", "Aircraft Manufacturer"),
   ("Aircraft Manufacturer", "Aircraft Manufacturer"),
   ("aboard", "Aboard"), ("Aboard", "Aboard"),
   ("fatalities_(air)", "Fatalities (Air)"),
   ("Fatalities (Air)", "Fatalities (Air)"),
   ("ground", "Ground"), ("Ground", "Ground")]

def renameLookup : List (String × String) → String → Option String
  | [], _ => none
  | (k, val) :: rest, c => if k = c then some val else renameLookup rest c

/-- Canonical name of one raw column label: exact-match alias lookup, labels
outside the alias table left untouched.  `df.rename` ignores dict keys that
are not column labels, so restricting the dict to present columns (line 41)
renames each present column exactly as the unrestricted lookup does. -/
def applyRename (c : String) : String := (renameLookup rename_map c).getD c

def rename_columns (t : Table) : Table :=
  Table.mk (t.cols.map applyRename)
    (t.rows.map (fun r => r.map (fun kv => (applyRename kv.1, kv.2))))

/-- Value of one decimal digit character. -/
def digitVal (c : Char) : Option ℕ :=
  if c.isDigit then some (c.toNat - 48) else none

/-- Value of a non-empty all-digit character run; `none` on anything else. -/
def digitsVal : List Char → Option ℕ
  | [] => none
  | [c] => digitVal c
  | c :: rest =>
      match digitVal c, digitsVal rest with
      | some d, some n => some (d * 10 ^ rest.length + n)
      | _, _ => none

/-- Unsigned part of the number grammar for
`pd.to_numeric(..., errors="coerce")`: an integer or fixed-point decimal
form, the forms the dataset's numeric columns hold (scientific notation is a
reader detail outside the model); anything else is unparseable. -/
def parseDecimalChars (cs : List Char) : Option ℚ :=
  match cs.splitOn '.' with
  | [a] => (digitsVal a).map (fun n => (n : ℚ))
  | [a, b] =>
      match digitsVal a, digitsVal b with
      | some n, some f => some ((n : ℚ) + (f : ℚ) / (10 : ℚ) ^ b.length)
      | _, _ => none
  | _ => none

/-- Signed number grammar: an optional sign followed by the unsigned form;
unparseable strings yield `none`, which coercion turns into missing. -/
def parseNum (s : String) : Option ℚ :=
  match s.data with
  | '-' :: rest => (parseDecimalChars rest).map (fun q => -q)
  | '+' :: rest => parseDecimalChars rest
  | cs => parseDecimalChars cs

/-- One cell under `pd.to_numeric(errors="coerce")`: numbers pass through,
missing stays missing, strings parse to a number or become missing — never an
error. -/
def toNumericCell : Cell → Cell
  | Cell.na => Cell.na
  | Cell.num q => Cell.num q
  | Cell.str s =>
      match parseNum s with
      | some q => Cell.num q
      | none => Cell.na

def numeric_cols : List String :=
  ["Year", "Month", "Aboard", "Fatalities (Air)", "Ground"]

/-- Rewrite every entry stored under label `c` (pandas column assignment
`df[col] = f(df[col])`). -/
def mapCol (t : Table) (c : String) (f : Cell → Cell) : Table :=
  Table.mk t.cols
    (t.rows.map (fun r =>
      r.map (fun kv => if kv.1 = c then (kv.1, f kv.2) else kv)))

/-- One iteration of the numeric-conversion loop of `load_data` (app.py
lines 45-47): convert the column when present, skip it otherwise. -/
def coerceStep (t : Table) (c : String) : Table :=
  if c ∈ t.cols then mapCol t c toNumericCell else t

/-- The numeric-conversion loop of `load_data` (app.py lines 44-47). -/
def coerce_numeric (t : Table) : Table := numeric_cols.foldl coerceStep t

def month_names : List (ℚ × String) :=
  [(1, "January"), (2, "February"), (3, "March"), (4, "April"), (5, "May"),
   (6, "June"), (7, "July"), (8, "August"), (9, "September"),
   (10, "October"), (11, "November"), (12, "December")]

def monthNameLookup : List (ℚ × String) → ℚ → Option String
  | [], _ => none
  | (k, val) :: rest, q => if k = q then some val else monthNameLookup rest q

/-- `Series.map(dict)`: month numbers outside the dict keys — and missing
months — map to missing, not an error. -/
def monthNameCell : Cell → Cell
  | Cell.num q =>
      match monthNameLookup month_names q with
      | some s => Cell.str s
      | none => Cell.na
  | _ => Cell.na

/-- Month-name derivation of `load_data` (app.py lines 50-56), run only when
Month Name is absent and Month present. -/
def add_month_name (t : Table) : Table :=
  if "Month Name" ∉ t.cols ∧ "Month" ∈ t.cols then
    Table.mk (t.cols ++ ["Month Name"])
      (t.rows.map (fun r =>
        setEntry r "Month Name" (monthNameCell (getCell r "Month"))))
  else t

/-- Per-record survival rate (app.py lines 60-64):
`np.where((Aboard > 0) & (Fatalities.notna()), 1 - (Fatalities/Aboard).clip(0, 1), nan)`.
After coercion both cells are numeric or missing; a missing Aboard fails the
`> 0` test, a missing Fatalities fails `notna`, and either way the record
gets a missing rate. -/
def survivalRateCell : Cell → Cell → Cell
  | Cell.num qa, Cell.num qf =>
      if 0 < qa then Cell.num (1 - min (max (qf / qa) 0) 1) else Cell.na
  | _, _ => Cell.na

/-- Survival-rate derivation of `load_data` (app.py lines 59-64), run only
when both input columns exist; assigning the column overwrites an existing
Survival Rate column in place, otherwise appends it. -/
def add_survival_rate (t : Table) : Table :=
  if "Aboard" ∈ t.cols ∧ "Fatalities (Air)" ∈ t.cols then
    Table.mk
      (if "Survival Rate" ∈ t.cols then t.cols
        else t.cols ++ ["Survival Rate"])
      (t.rows.map (fun r =>
        setEntry r "Survival Rate"
          (survivalRateCell (getCell r "Aboard")
            (getCell r "Fatalities (Air)"))))
  else t

/-- Embedding of `load_data` (app.py lines 20-70): `none` models a source the
CSV reader cannot read or parse, for which the surrounding `try/except`
returns an empty frame (zero rows, zero columns); a readable source is
renamed, coerced and extended with the derived columns.  Every path is total:
the embedding never raises. -/
def load_data (source : Option Table) : Table :=
  match source with
  | none => Table.mk [] []
  | some df =>
      add_survival_rate (add_month_name (coerce_numeric (rename_columns df)))

/-- A cell that is a number or missing — the shape of every cell of a
successfully coerced numeric column. -/
def numOrNA (c : Cell) : Prop := (∃ q, c = Cell.num q) ∨ c = Cell.na

theorem numOrNA_toNumericCell (x : Cell) : numOrNA (toNumericCell x) := by
  cases x with
  | na => exact Or.inr rfl
  | num q => exact Or.inl ⟨q, rfl⟩
  | str s =>
      cases hp : parseNum s with
      | none =>
          right
          simp [toNumericCell, hp]
      | some q =>
          left
          exact ⟨q, by simp [toNumericCell, hp]⟩

theorem getCell_cons (k₁ k : String) (v : Cell) (rest : Row) :
    getCell ((k₁, v) :: rest) k = if k₁ = k then v else getCell rest k := rfl


theorem getCell_append_of_not_any (k : String) (l : Row) :
    ∀ r : Row, r.any (fun kv => kv.1 = k) = false →
      getCell (r ++ l) k = getCell l k := by
  intro r
  induction r with
  | nil => intro _; rfl
  | cons kv rest ih =>
      intro h
      rw [List.any_cons, Bool.or_eq_false_iff] at h
      obtain ⟨hk, hrest⟩ := h
      obtain ⟨k₁, v₁⟩ := kv
      rw [List.cons_append, getCell_cons, if_neg (of_decide_eq_false hk),
        ih hrest]

theorem getCell_append_single_ne (k k₀ : String) (v : Cell) (h : k₀ ≠ k) :
    ∀ r : Row, getCell (r ++ [(k, v)]) k₀ = getCell r k₀ := by
  intro r
  induction r with
  | nil =>
      show (if k = k₀ then v else Cell.na) = Cell.na
      rw [if_neg (fun he => h he.symm)]
  | cons kv rest ih =>
      obtain ⟨k₁, v₁⟩ := kv
      rw [List.cons_append, getCell_cons, getCell_cons, ih]

theorem getCell_overwrite_self (k : String) (v : Cell) :
    ∀ r : Row, r.any (fun kv => kv.1 = k) = true →
      getCell (r.map (fun kv => if kv.1 = k then (k, v) else kv)) k = v := by
  intro r
  induction r with
  | nil => intro h; simp at h
  | cons kv rest ih =>
      intro h
      obtain ⟨k₁, v₁⟩ := kv
      by_cases hk : k₁ = k
      · simp only [List.map_cons, if_pos hk]
        rw [getCell_cons, if_pos rfl]
      · rw [List.any_cons, Bool.or_eq_true] at h
        have hrest : rest.any (fun kv => kv.1 = k) = true := by
          rcases h with h | h
          · exact absurd (of_decide_eq_true h) hk
          · exact h
        simp only [List.map_cons, if_neg hk]
        rw [getCell_cons, if_neg hk]
        exact ih hrest

theorem getCell_overwrite_ne (k k₀ : String) (v : Cell) (h : k₀ ≠ k) :
    ∀ r : Row, getCell (r.map (fun kv => if kv.1 = k then (k, v) else kv)) k₀
      = getCell r k₀ := by
  intro r
  induction r with
  | nil => rfl
  | cons kv rest ih =>
      obtain ⟨k₁, v₁⟩ := kv
      by_cases hk : k₁ = k
      · subst hk
        simp only [List.map_cons, if_pos rfl]
        rw [getCell_cons, getCell_cons, if_neg (fun he => h he.symm),
          if_neg (fun he => h he.symm), ih]
      · simp only [List.map_cons, if_neg hk]
        rw [getCell_cons, getCell_cons, ih]

theorem getCell_setEntry_self (r : Row) (k : String) (v : Cell) :
    getCell (setEntry r k v) k = v := by
  unfold setEntry
  split_ifs with h
  · exact getCell_overwrite_self k v r h
  · have hf : r.any (fun kv => kv.1 = k) = false := by
      rwa [Bool.not_eq_true] at h
    rw [getCell_append_of_not_any k _ r hf, getCell_cons, if_pos rfl]

theorem getCell_setEntry_ne (r : Row) (k k₀ : String) (v : Cell)
    (h : k₀ ≠ k) : getCell (setEntry r k v) k₀ = getCell r k₀ := by
  unfold setEntry
  split_ifs with hany
  · exact getCell_overwrite_ne k k₀ v h r
  · exact getCell_append_single_ne k k₀ v h r

theorem getCell_mapRow_ne (c k : String) (f : Cell → Cell) (h : k ≠ c) :
    ∀ r : Row,
      getCell (r.map (fun kv => if kv.1 = c then (kv.1, f kv.2) else kv)) k
        = getCell r k := by
  intro r
  induction r with
  | nil => rfl
  | cons kv rest ih =>
      obtain ⟨k₁, v₁⟩ := kv
      by_cases hk : k₁ = c
      · subst hk
        simp only [List.map_cons, if_pos rfl]
        rw [getCell_cons, getCell_cons, if_neg (fun he => h he.symm),
          if_neg (fun he => h he.symm), ih]
      · simp only [List.map_cons, if_neg hk]
        rw [getCell_cons, getCell_cons, ih]

theorem numOrNA_getCell_mapRow_self (c : String) (f : Cell → Cell)
    (hf : ∀ x, numOrNA (f x)) :
    ∀ r : Row,
      numOrNA
        (getCell (r.map (fun kv => if kv.1 = c then (kv.1, f kv.2) else kv))
          c) := by
  intro r
  induction r with
  | nil => exact Or.inr rfl
  | cons kv rest ih =>
      obtain ⟨k₁, v₁⟩ := kv
      by_cases hk : k₁ = c
      · simp only [List.map_cons, if_pos hk]
        rw [getCell_cons, if_pos hk]
        exact hf v₁
      · simp only [List.map_cons, if_neg hk]
        rw [getCell_cons, if_neg hk]
        exact ih

/-- Every cell of column `c` of the table is a number or missing. -/
def colNumOrNA (t : Table) (c : String) : Prop :=
  ∀ r ∈ t.rows, numOrNA (getCell r c)

theorem coerceStep_cols (t : Table) (c : String) :
    (coerceStep t c).cols = t.cols := by
  unfold coerceStep
  split_ifs <;> rfl

theorem coerce_foldl_cols : ∀ (cs : List String) (t : Table),
    (cs.foldl coerceStep t).cols = t.cols := by
  intro cs
  induction cs with
  | nil => intro t; rfl
  | cons c cs ih => intro t; rw [List.foldl_cons, ih, coerceStep_cols]

theorem coerce_numeric_cols_eq (t : Table) :
    (coerce_numeric t).cols = t.cols :=
  coerce_foldl_cols numeric_cols t

theorem colNumOrNA_coerceStep (t : Table) (c c' : String)
    (h : colNumOrNA t c) : colNumOrNA (coerceStep t c') c := by
  unfold coerceStep
  split_ifs with hc
  · intro r hr
    obtain ⟨r0, hr0, rfl⟩ := List.mem_map.mp hr
    by_cases hcc : c = c'
    · subst hcc
      exact numOrNA_getCell_mapRow_self c toNumericCell numOrNA_toNumericCell
        r0
    · rw [getCell_mapRow_ne c' c toNumericCell hcc r0]
      exact h r0 hr0
  · exact h

theorem colNumOrNA_coerceStep_self (t : Table) (c : String) (hc : c ∈ t.cols) :
    colNumOrNA (coerceStep t c) c := by
  unfold coerceStep
  rw [if_pos hc]
  intro r hr
  obtain ⟨r0, hr0, rfl⟩ := List.mem_map.mp hr
  exact numOrNA_getCell_mapRow_self c toNumericCell numOrNA_toNumericCell r0

theorem colNumOrNA_foldl (cs : List String) :
    ∀ (t : Table) (c : String), colNumOrNA t c →
      colNumOrNA (cs.foldl coerceStep t) c := by
  induction cs with
  | nil => intro t c h; exact h
  | cons c' cs ih =>
      intro t c h
      rw [List.foldl_cons]
      exact ih _ c (colNumOrNA_coerceStep t c c' h)

theorem coerce_numeric_numOrNA : ∀ (cs : List String) (t : Table) (c : String),
    c ∈ cs → c ∈ t.cols → colNumOrNA (cs.foldl coerceStep t) c := by
  intro cs
  induction cs with
  | nil => intro t c h _; cases h
  | cons c' cs ih =>
      intro t c hmem hcol
      rw [List.foldl_cons]
      rcases List.mem_cons.mp hmem with rfl | h
      · exact colNumOrNA_foldl cs _ c (colNumOrNA_coerceStep_self t c hcol)
      · exact ih _ c h (by rw [coerceStep_cols]; exact hcol)

theorem add_month_name_cols (t : Table) :
    (add_month_name t).cols = t.cols
      ∨ (add_month_name t).cols = t.cols ++ ["Month Name"] := by
  unfold add_month_name
  split_ifs
  · right; rfl
  · left; rfl

theorem add_survival_rate_cols (t : Table) :
    (add_survival_rate t).cols = t.cols
      ∨ (add_survival_rate t).cols = t.cols ++ ["Survival Rate"] := by
  unfold add_survival_rate
  split_ifs
  · left; rfl
  · right; rfl
  · left; rfl

theorem colNumOrNA_add_month_name (t : Table) (c : String)
    (hc : c ≠ "Month Name") (h : colNumOrNA t c) :
    colNumOrNA (add_month_name t) c := by
  unfold add_month_name
  split_ifs with hg
  · intro r hr
    obtain ⟨r0, hr0, rfl⟩ := List.mem_map.mp hr
    rw [getCell_setEntry_ne r0 _ c _ hc]
    exact h r0 hr0
  · exact h

theorem colNumOrNA_add_survival_rate (t : Table) (c : String)
    (hc : c ≠ "Survival Rate") (h : colNumOrNA t c) :
    colNumOrNA (add_survival_rate t) c := by
  unfold add_survival_rate
  split_ifs with hg hsr
  · intro r hr
    obtain ⟨r0, hr0, rfl⟩ := List.mem_map.mp hr
    rw [getCell_setEntry_ne r0 _ c _ hc]
    exact h r0 hr0
  · intro r hr
    obtain ⟨r0, hr0, rfl⟩ := List.mem_map.mp hr
    rw [getCell_setEntry_ne r0 _ c _ hc]
    exact h r0 hr0
  · exact h

theorem load_data_mem_cols_core (raw : Table) (c : String)
    (hmn : c ≠ "Month Name") (hsr : c ≠ "Survival Rate")
    (h : c ∈ (load_data (some raw)).cols) :
    c ∈ (rename_columns raw).cols := by
  have h1 : c ∈ (add_month_name (coerce_numeric (rename_columns raw))).cols := by
    rcases add_survival_rate_cols
        (add_month_name (coerce_numeric (rename_columns raw))) with he | he
    · rwa [show (load_data (some raw)).cols
          = (add_survival_rate
              (add_month_name (coerce_numeric (rename_columns raw)))).cols
          from rfl, he] at h
    · rw [show (load_data (some raw)).cols
          = (add_survival_rate
              (add_month_name (coerce_numeric (rename_columns raw)))).cols
          from rfl, he] at h
      rcases List.mem_append.mp h with h' | h'
      · exact h'
      · exact absurd (List.mem_singleton.mp h') hsr
  have h2 : c ∈ (coerce_numeric (rename_columns raw)).cols := by
    rcases add_month_name_cols (coerce_numeric (rename_columns raw)) with he | he
    · rwa [he] at h1
    · rw [he] at h1
      rcases List.mem_append.mp h1 with h' | h'
      · exact h'
      · exact absurd (List.mem_singleton.mp h') hmn
  rwa [coerce_numeric_cols_eq] at h2

theorem load_data_numeric_numOrNA (raw : Table) (c : String)
    (h1 : c ∈ numeric_cols) (h2 : c ∈ (load_data (some raw)).cols) :
    colNumOrNA (load_data (some raw)) c := by
  have hne : c ≠ "Month Name" ∧ c ≠ "Survival Rate" := by
    fin_cases h1 <;> exact ⟨by decide, by decide⟩
  have hc1 : c ∈ (rename_columns raw).cols :=
    load_data_mem_cols_core raw c hne.1 hne.2 h2
  have hc : colNumOrNA (coerce_numeric (rename_columns raw)) c :=
    coerce_numeric_numOrNA numeric_cols (rename_columns raw) c h1 hc1
  exact colNumOrNA_add_survival_rate _ c hne.2
    (colNumOrNA_add_month_name _ c hne.1 hc)

theorem one_sub_clip_eq (x : ℚ) :
    1 - min (max x 0) 1 = max 0 (min 1 (1 - x)) := by
  rcases le_total x 0 with h | h
  · rw [max_eq_right h, min_eq_left (by norm_num : (0:ℚ) ≤ 1),
      min_eq_left (by linarith : (1:ℚ) ≤ 1 - x),
      max_eq_right (by norm_num : (0:ℚ) ≤ 1)]
    norm_num
  · rcases le_total x 1 with h1 | h1
    · rw [max_eq_left h, min_eq_left h1,
        min_eq_right (by linarith : 1 - x ≤ 1),
        max_eq_right (by linarith : (0:ℚ) ≤ 1 - x)]
    · rw [max_eq_left (by linarith : (0:ℚ) ≤ x), min_eq_right h1,
        min_eq_right (by linarith : 1 - x ≤ 1),
        max_eq_left (by linarith : 1 - x ≤ 0)]
      norm_num

theorem survivalRateCell_spec (a f : Cell) (ha : numOrNA a) (hf : numOrNA f) :
    (survivalRateCell a f ≠ Cell.na ↔
      ((∃ qa, a = Cell.num qa ∧ 0 < qa) ∧ ∃ qf, f = Cell.num qf))
    ∧ ∀ qa qf, a = Cell.num qa → f = Cell.num qf → 0 < qa →
        survivalRateCell a f = Cell.num (max 0 (min 1 (1 - qf / qa)))
        ∧ 0 ≤ max 0 (min 1 (1 - qf / qa))
        ∧ max 0 (min 1 (1 - qf / qa)) ≤ 1 := by
  rcases ha with ⟨qa, rfl⟩ | rfl
  · rcases hf with ⟨qf, rfl⟩ | rfl
    · constructor
      · by_cases hpos : 0 < qa
        · constructor
          · intro _
            exact ⟨⟨qa, rfl, hpos⟩, qf, rfl⟩
          · intro _
            simp [survivalRateCell, if_pos hpos]
        · constructor
          · intro hne
            exact absurd (by simp [survivalRateCell, if_neg hpos]) hne
          · rintro ⟨⟨qa', hqa', hpos'⟩, -⟩
            injection hqa' with h
            subst h
            exact absurd hpos' hpos
      · intro qa' qf' hqa hqf hpos
        injection hqa with h
        subst h
        injection hqf with h2
        subst h2
        refine ⟨?_, le_max_left 0 _, max_le (by norm_num) (min_le_left 1 _)⟩
        simp only [survivalRateCell, if_pos hpos]
        rw [one_sub_clip_eq]
    · constructor
      · constructor
        · intro hne
          exact absurd rfl hne
        · rintro ⟨-, qf, hqf⟩
          cases hqf
      · intro qa' qf' hqa hqf hpos
        cases hqf
  · rcases hf with ⟨qf, rfl⟩ | rfl
    · constructor
      · constructor
        · intro hne
          exact absurd rfl hne
        · rintro ⟨⟨qa', hqa', -⟩, -⟩
          cases hqa'
      · intro qa' qf' hqa hqf hpos
        cases hqa
    · constructor
      · constructor
        · intro hne
          exact absurd rfl hne
        · rintro ⟨⟨qa', hqa', -⟩, -⟩
          cases hqa'
      · intro qa' qf' hqa hqf hpos
        cases hqa

/-- C1: in the table produced by `load_data`, whenever both the Aboard and
Fatalities (Air) columns exist, every record's Survival Rate cell is
non-missing exactly when Aboard is a number > 0 and Fatalities (Air) is a
non-missing number, and in that case equals
clamp(1 − Fatalities/Aboard, 0, 1), a value in [0, 1] (the code's
`1 - (Fatalities/Aboard).clip(0, 1)` coincides with that clamp); when
Aboard ≤ 0 (or missing) or Fatalities (Air) is missing, Survival Rate is
missing — never a negative or a >1 value. -/
theorem survival_rate_spec (raw : Table)
    (h1 : "Aboard" ∈ (load_data (some raw)).cols)
    (h2 : "Fatalities (Air)" ∈ (load_data (some raw)).cols) :
    ∀ r ∈ (load_data (some raw)).rows,
      (getCell r "Survival Rate" ≠ Cell.na ↔
        ((∃ qa, getCell r "Aboard" = Cell.num qa ∧ 0 < qa)
          ∧ ∃ qf, getCell r "Fatalities (Air)" = Cell.num qf))
      ∧ ∀ qa qf, getCell r "Aboard" = Cell.num qa →
          getCell r "Fatalities (Air)" = Cell.num qf → 0 < qa →
          getCell r "Survival Rate"
              = Cell.num (max 0 (min 1 (1 - qf / qa)))
            ∧ 0 ≤ max 0 (min 1 (1 - qf / qa))
            ∧ max 0 (min 1 (1 - qf / qa)) ≤ 1 := by
  have hload : load_data (some raw)
      = add_survival_rate
          (add_month_name (coerce_numeric (rename_columns raw))) := rfl
  by_cases hg :
      "Aboard" ∈ (add_month_name (coerce_numeric (rename_columns raw))).cols
      ∧ "Fatalities (Air)"
          ∈ (add_month_name (coerce_numeric (rename_columns raw))).cols
  · have hrows : (load_data (some raw)).rows
        = (add_month_name (coerce_numeric (rename_columns raw))).rows.map
          (fun r => setEntry r "Survival Rate"
            (survivalRateCell (getCell r "Aboard")
              (getCell r "Fatalities (Air)"))) := by
      rw [hload]
      unfold add_survival_rate
      rw [if_pos hg]
    intro r hr
    have hmem := hr
    rw [hrows] at hr
    obtain ⟨r0, hr0, rfl⟩ := List.mem_map.mp hr
    have hA : getCell (setEntry r0 "Survival Rate"
          (survivalRateCell (getCell r0 "Aboard")
            (getCell r0 "Fatalities (Air)"))) "Aboard"
        = getCell r0 "Aboard" :=
      getCell_setEntry_ne r0 "Survival Rate" "Aboard" _ (by decide)
    have hF : getCell (setEntry r0 "Survival Rate"
          (survivalRateCell (getCell r0 "Aboard")
            (getCell r0 "Fatalities (Air)"))) "Fatalities (Air)"
        = getCell r0 "Fatalities (Air)" :=
      getCell_setEntry_ne r0 "Survival Rate" "Fatalities (Air)" _ (by decide)
    have hS : getCell (setEntry r0 "Survival Rate"
          (survivalRateCell (getCell r0 "Aboard")
            (getCell r0 "Fatalities (Air)"))) "Survival Rate"
        = survivalRateCell (getCell r0 "Aboard")
            (getCell r0 "Fatalities (Air)") :=
      getCell_setEntry_self r0 "Survival Rate" _
    have hAna : numOrNA (getCell r0 "Aboard") := by
      have h := load_data_numeric_numOrNA raw "Aboard" (by decide) h1 _ hmem
      rwa [hA] at h
    have hFna : numOrNA (getCell r0 "Fatalities (Air)") := by
      have h := load_data_numeric_numOrNA raw "Fatalities (Air)" (by decide)
        h2 _ hmem
      rwa [hF] at h
    rw [hA, hF, hS]
    exact survivalRateCell_spec _ _ hAna hFna
  · exfalso
    apply hg
    have heq : add_survival_rate
          (add_month_name (coerce_numeric (rename_columns raw)))
        = add_month_name (coerce_numeric (rename_columns raw)) := by
      unfold add_survival_rate
      rw [if_neg hg]
    rw [hload, heq] at h1 h2
    exact ⟨h1, h2⟩

theorem survival_rate_spec_witness :
    ("Aboard" ∈ (load_data (some (Table.mk ["Aboard", "Fatalities (Air)"]
        [[("Aboard", Cell.num 100),
          ("Fatalities (Air)", Cell.num 20)]]))).cols)
    ∧ ("Fatalities (Air)"
        ∈ (load_data (some (Table.mk ["Aboard", "Fatalities (Air)"]
            [[("Aboard", Cell.num 100),
              ("Fatalities (Air)", Cell.num 20)]]))).cols)
    ∧ ∀ r ∈ (load_data (some (Table.mk ["Aboard", "Fatalities (Air)"]
        [[("Aboard", Cell.num 100),
          ("Fatalities (Air)", Cell.num 20)]]))).rows,
        (getCell r "Survival Rate" ≠ Cell.na ↔
          ((∃ qa, getCell r "Aboard" = Cell.num qa ∧ 0 < qa)
            ∧ ∃ qf, getCell r "Fatalities (Air)" = Cell.num qf))
        ∧ ∀ qa qf, getCell r "Aboard" = Cell.num qa →
            getCell r "Fatalities (Air)" = Cell.num qf → 0 < qa →
            getCell r "Survival Rate"
                = Cell.num (max 0 (min 1 (1 - qf / qa)))
              ∧ 0 ≤ max 0 (min 1 (1 - qf / qa))
              ∧ max 0 (min 1 (1 - qf / qa)) ≤ 1 :=
  ⟨by decide, by decide,
    survival_rate_spec
      (Table.mk ["Aboard", "Fatalities (Air)"]
        [[("Aboard", Cell.num 100), ("Fatalities (Air)", Cell.num 20)]])
      (by decide) (by decide)⟩

theorem renameLookup_eq_none (c : String) :
    ∀ l : List (String × String), (∀ v, (c, v) ∉ l) →
      renameLookup l c = none := by
  intro l
  induction l with
  | nil => intro _; rfl
  | cons kv rest ih =>
      intro h
      obtain ⟨k, val⟩ := kv
      rw [renameLookup, if_neg ?hk]
      · exact ih (fun v hv => h v (List.mem_cons_of_mem _ hv))
      case hk =>
        intro he
        subst he
        exact h val (List.mem_cons_self _ _)

/-- C9: normalization in `load_data` sends every alias in the table to its
canonical column name by exact-match lookup (first conjunct: every alias
pair, among them "year" and "Year" both to "Year"); leaves any name outside
the alias table untouched (second conjunct); the loaded table's columns are
the renamed raw columns, possibly followed by the derived columns (third
conjunct); the recognized numeric columns of the loaded table hold only
numbers or missing values — coercion is to numeric type (fourth conjunct);
and a string that does not parse coerces to missing rather than raising
(fifth conjunct; the embedding is total, so no path errors). -/
theorem load_data_normalization_spec :
    (∀ p ∈ rename_map, applyRename p.1 = p.2)
    ∧ (∀ c : String, (∀ v, (c, v) ∉ rename_map) → applyRename c = c)
    ∧ (∀ raw : Table, ∃ extra,
        (load_data (some raw)).cols = raw.cols.map applyRename ++ extra)
    ∧ (∀ (raw : Table) (c : String), c ∈ numeric_cols →
        c ∈ (load_data (some raw)).cols →
        ∀ r ∈ (load_data (some raw)).rows,
          (∃ q, getCell r c = Cell.num q) ∨ getCell r c = Cell.na)
    ∧ (∀ s, parseNum s = none → toNumericCell (Cell.str s) = Cell.na) := by
  refine ⟨by decide, ?_, ?_, ?_, ?_⟩
  · intro c h
    unfold applyRename
    rw [renameLookup_eq_none c rename_map h]
    rfl
  · intro raw
    have hc : (coerce_numeric (rename_columns raw)).cols
        = raw.cols.map applyRename := by
      rw [coerce_numeric_cols_eq]
      rfl
    have hshow : (load_data (some raw)).cols
        = (add_survival_rate
            (add_month_name (coerce_numeric (rename_columns raw)))).cols :=
      rfl
    rcases add_month_name_cols (coerce_numeric (rename_columns raw)) with
      hm | hm
    · rcases add_survival_rate_cols
          (add_month_name (coerce_numeric (rename_columns raw))) with hs | hs
      · exact ⟨[], by rw [hshow, hs, hm, hc, List.append_nil]⟩
      · exact ⟨["Survival Rate"], by rw [hshow, hs, hm, hc]⟩
    · rcases add_survival_rate_cols
          (add_month_name (coerce_numeric (rename_columns raw))) with hs | hs
      · exact ⟨["Month Name"], by rw [hshow, hs, hm, hc]⟩
      · exact ⟨["Month Name", "Survival Rate"],
          by rw [hshow, hs, hm, hc, List.append_assoc]; rfl⟩
  · intro raw c h1 h2 r hr
    exact load_data_numeric_numOrNA raw c h1 h2 r hr
  · intro s hp
    simp [toNumericCell, hp]

theorem load_data_normalization_spec_witness :
    ((∀ v, ("Wingspan", v) ∉ rename_map)
      ∧ applyRename "Wingspan" = "Wingspan")
    ∧ (("Year" ∈ numeric_cols)
      ∧ ("Year" ∈ (load_data (some (Table.mk ["year"]
          [[("year", Cell.str "1985")], [("year", Cell.str "abc")]]))).cols)
      ∧ ∀ r ∈ (load_data (some (Table.mk ["year"]
          [[("year", Cell.str "1985")], [("year", Cell.str "abc")]]))).rows,
          (∃ q, getCell r "Year" = Cell.num q) ∨ getCell r "Year" = Cell.na)
    ∧ (parseNum "abc" = none ∧ toNumericCell (Cell.str "abc") = Cell.na) :=
  ⟨⟨by intro v; simp [rename_map],
    load_data_normalization_spec.2.1 "Wingspan" (by intro v; simp [rename_map])⟩,
   ⟨by decide, by decide,
    load_data_normalization_spec.2.2.2.1
      (Table.mk ["year"] [[("year", Cell.str "1985")],
        [("year", Cell.str "abc")]]) "Year" (by decide) (by decide)⟩,
   by decide,
   load_data_normalization_spec.2.2.2.2 "abc" (by decide)⟩

/-- Outcome of one pass of `main` (app.py lines 163-243) at the level the
load-failure claim needs: the load-failure branch shows the blocking message
and returns before any filtering, aggregation or rendering; the empty-view
branch warns and returns before page dispatch; otherwise the selected page is
rendered from the filtered table. -/
inductive MainOutcome where
  | loadFailed : MainOutcome
  | noMatch : MainOutcome
  | rendered : String → Table → MainOutcome
deriving DecidableEq

/-- Embedding of the control flow of `main` (app.py lines 163-243): load,
short-circuit on an empty loaded table (`if df.empty: st.error(...); return`),
apply the selected filters, short-circuit on an empty filtered view, then
dispatch the selected page. -/
def main_model (source : Option Table) (filters : List (String × Cell))
    (page : String) : MainOutcome :=
  let df := load_data source
  if dfEmpty df then MainOutcome.loadFailed
  else
    let fdf := apply_filters df filters
    if dfEmpty fdf then MainOutcome.noMatch
    else MainOutcome.rendered page fdf

/-- C8: an unreadable or structurally invalid source makes `load_data`
return the empty table (zero rows, no columns) and never raise (the
embedding is total), and the caller treats any empty loaded table as load
failure: `main` takes the error branch and returns, so no filtering,
aggregation or rendering happens — the `loadFailed` outcome carries no
filtered view and the model returns before `apply_filters` runs. -/
theorem load_failure_spec :
    load_data none = Table.mk [] []
    ∧ (∀ (filters : List (String × Cell)) (page : String),
        main_model none filters page = MainOutcome.loadFailed)
    ∧ (∀ (source : Option Table) (filters : List (String × Cell))
        (page : String), dfEmpty (load_data source) = true →
        main_model source filters page = MainOutcome.loadFailed) := by
  refine ⟨rfl, ?_, ?_⟩
  · intro filters page
    rfl
  · intro source filters page h
    simp [main_model, h]

theorem load_failure_spec_witness :
    dfEmpty (load_data (some (Table.mk [] []))) = true
    ∧ main_model (some (Table.mk [] [])) [("Year", Cell.str "All")]
        "Overview" = MainOutcome.loadFailed :=
  ⟨by decide,
    load_failure_spec.2.2 (some (Table.mk [] []))
      [("Year", Cell.str "All")] "Overview" (by decide)⟩

/-- Python truthiness of an optional numeric metric: `None` and numeric zero
are both falsy, every other number truthy. -/
def pyTruthy (v : Option ℚ) : Bool :=
  match v with
  | none => false
  | some q => q ≠ 0

/-- A KPI slot of the overview page: the formatted value when the metric is
truthy, the sentinel "–" otherwise (app.py lines 271 and 273 render with
`f"..." if metric else "–"`). -/
def kpi_text (fmt : ℚ → String) (v : Option ℚ) : String :=
  if pyTruthy v then fmt (v.getD 0) else "–"

/-- Stand-in for the one-decimal formatting of the average-fatalities KPI;
the claim under study concerns only the truthiness gate in front of it. -/
def fmt_avg (q : ℚ) : String := toString q

/-- Stand-in for the percentage formatting of the mean-survival-rate KPI. -/
def fmt_pct (q : ℚ) : String := toString (q * 100) ++ "%"

/-- The average-fatalities KPI text (app.py lines 253 and 271). -/
def avg_fatalities_text (fatalities : List (Option ℚ)) : String :=
  kpi_text fmt_avg (safe_metric_calculation fatalities "mean")

/-- The mean-survival-rate KPI text (app.py lines 254 and 273). -/
def survival_rate_text (rates : List (Option ℚ)) : String :=
  kpi_text fmt_pct (safe_metric_calculation rates "mean")

/-- C10: the overview page checks aggregate availability by Python
truthiness, so a legitimate numeric mean of exactly 0 from the reducer (for
example a filtered set in which every incident had zero survivors) displays
the sentinel "–" for both the average-fatalities and mean-survival-rate
KPIs, exactly as the unavailable (`None`) case does — the two cases are
indistinguishable on the page. -/
theorem truthiness_zero_sentinel (fats rates : List (Option ℚ))
    (h1 : safe_metric_calculation fats "mean" = some 0)
    (h2 : safe_metric_calculation rates "mean" = some 0) :
    avg_fatalities_text fats = "–"
    ∧ survival_rate_text rates = "–"
    ∧ avg_fatalities_text fats = kpi_text fmt_avg none
    ∧ survival_rate_text rates = kpi_text fmt_pct none := by
  refine ⟨?_, ?_, ?_, ?_⟩ <;>
    simp [avg_fatalities_text, survival_rate_text, h1, h2, kpi_text, pyTruthy]

theorem truthiness_zero_sentinel_witness :
    (safe_metric_calculation [some 0] "mean" = some 0
      ∧ safe_metric_calculation [some 0, some 0] "mean" = some 0)
    ∧ (avg_fatalities_text [some 0] = "–"
      ∧ survival_rate_text [some 0, some 0] = "–"
      ∧ avg_fatalities_text [some 0] = kpi_text fmt_avg none
      ∧ survival_rate_text [some 0, some 0] = kpi_text fmt_pct none) :=
  ⟨⟨by norm_num [safe_metric_calculation, List.filterMap_cons,
      List.filterMap_nil, List.sum_cons, List.sum_nil],
    by norm_num [safe_metric_calculation, List.filterMap_cons,
      List.filterMap_nil, List.sum_cons, List.sum_nil]⟩,
    truthiness_zero_sentinel [some 0] [some 0, some 0]
      (by norm_num [safe_metric_calculation, List.filterMap_cons,
        List.filterMap_nil, List.sum_cons, List.sum_nil])
      (by norm_num [safe_metric_calculation, List.filterMap_cons,
        List.filterMap_nil, List.sum_cons, List.sum_nil])⟩
